import Mathlib

/-!
# Verification of `scripts/terraform_to_json_schema.py`

A shallow embedding of the Terraform-type-expression → JSON-Schema compiler
(`TerraformTypeParser` and `GenericJSONSchemaGenerator`) together with proofs
and refutations of the specification's claims about it.

Python dictionaries are modelled as insertion-ordered association lists over
`JVal` (the JSON value type); the parser's mutable instance state
(`optional_fields`, `current_depth`) is threaded explicitly as `PState`;
Python exceptions are modelled by `Option` (`none` = the call raises); the
string-length-bounded recursion of the recursive-descent parser is modelled
with an explicit fuel parameter (`none` also on fuel exhaustion, which never
happens for fuel larger than the input length).
-/

set_option maxHeartbeats 1600000
set_option maxRecDepth 4000

namespace TfSchema

/-- JSON-like values: the result type of the schema generator, mirroring the
Python dictionaries/lists/scalars the script manipulates.  Python `float`
results are kept symbolically as their (stripped) source text, since no claim
depends on IEEE arithmetic.  Dictionaries are insertion-ordered association
lists, matching Python `dict` semantics. -/
inductive JVal where
  | str (s : String)
  | int (n : Int)
  | float (s : String)
  | bool (b : Bool)
  | null
  | arr (xs : List JVal)
  | obj (kvs : List (String × JVal))

instance : Inhabited JVal := ⟨.null⟩

namespace JVal

/-- Python `d[k]` / `d.get(k)` on an association list: first binding wins
(keys are unique by construction of `jset`). -/
def jget : List (String × JVal) → String → Option JVal
  | [], _ => none
  | (k, v) :: rest, key => if k = key then some v else jget rest key

/-- Python `k in d`. -/
def jhas (kvs : List (String × JVal)) (key : String) : Bool :=
  (jget kvs key).isSome

/-- Python `d[k] = v`: replace the binding in place if the key is present
(keeping its position), otherwise append it at the end — exactly Python's
insertion-ordered `dict` assignment. -/
def jset : List (String × JVal) → String → JVal → List (String × JVal)
  | [], key, v => [(key, v)]
  | (k, w) :: rest, key, v =>
      if k = key then (k, v) :: rest else (k, w) :: jset rest key v

/-- Python `d.pop(k, default)`'s effect on the dictionary: remove the binding
for `k` (all of them; keys are unique in practice). -/
def jerase : List (String × JVal) → String → List (String × JVal)
  | [], _ => []
  | (k, w) :: rest, key =>
      if k = key then jerase rest key else (k, w) :: jerase rest key

/-- Field access on a `JVal` that is expected to be a dictionary. -/
def get (v : JVal) (key : String) : Option JVal :=
  match v with
  | .obj kvs => jget kvs key
  | _ => none

end JVal

open JVal

/-! ## Python string helpers -/

/-- The ASCII whitespace characters recognised by Python's `str.strip()` /
`\s` (the inputs handled by this program are ASCII). -/
def pyIsSpace (c : Char) : Bool :=
  c = ' ' || c = '\t' || c = '\n' || c = '\r' || c = '\x0b' || c = '\x0c'

/-- Python's regex `\w` class, restricted to ASCII. -/
def isWordChar (c : Char) : Bool :=
  ('a' ≤ c && c ≤ 'z') || ('A' ≤ c && c ≤ 'Z') || ('0' ≤ c && c ≤ '9') || c = '_'

def isDigitChar (c : Char) : Bool :=
  '0' ≤ c && c ≤ '9'

/-- Python `str.strip()` on a character list. -/
def stripChars (cs : List Char) : List Char :=
  ((cs.dropWhile pyIsSpace).reverse.dropWhile pyIsSpace).reverse

/-- Python `str.strip()`. -/
def pyStrip (s : String) : String :=
  (stripChars s.toList).asString

/-- Python `s.startswith(p)`. -/
def pyStartsWith (s p : String) : Bool :=
  p.toList.isPrefixOf s.toList

/-- Python `s.endswith(p)`. -/
def pyEndsWith (s p : String) : Bool :=
  p.toList.isSuffixOf s.toList

/-- Python slice `s[a:b]` for `0 ≤ a, b` (clamping at the ends). -/
def pySlice (s : String) (a b : Nat) : String :=
  ((s.toList.drop a).take (b - a)).asString

/-- Python `s[a:]`. -/
def pyDrop (s : String) (a : Nat) : String :=
  (s.toList.drop a).asString

/-- Python ASCII `str.lower()`. -/
def pyLowerChar (c : Char) : Char :=
  if 'A' ≤ c && c ≤ 'Z' then Char.ofNat (c.toNat + 32) else c

def pyLower (s : String) : String :=
  (s.toList.map pyLowerChar).asString

/-- Python `sep in s` for a single character. -/
def pyContainsChar (s : String) (c : Char) : Bool :=
  s.toList.contains c

/-- Python `s.find(c)` for a single character: index of the first occurrence,
`none` when absent (Python returns `-1`). -/
def pyFindChar (s : String) (c : Char) : Option Nat :=
  s.toList.findIdx? (· = c)

/-- Python `s.split(sep)` for a single-character separator (plain split,
keeping empty segments). -/
def pySplitChar (cs : List Char) (sep : Char) : List (List Char) :=
  match cs with
  | [] => [[]]
  | c :: rest =>
      let tail := pySplitChar rest sep
      if c = sep then [] :: tail
      else
        match tail with
        | [] => [[c]]
        | seg :: segs => (c :: seg) :: segs

/-! ## Python numeric literal decoding (`int(s)` / `float(s)`)

Python's `int`/`float` constructors accept an optional sign and digit groups
with single underscores between digits; `float` additionally accepts a decimal
point and an exponent.  The inputs are stripped before these are applied. -/

/-- A digit group `d(_?d)*` as accepted inside Python numeric literals.
Returns the digits (underscores removed) and the remaining input. -/
def digitGroup : List Char → Option (List Char × List Char)
  | c :: rest =>
      if isDigitChar c then
        match digitGroupCont rest with
        | (ds, rest') => some (c :: ds, rest')
      else none
  | [] => none
where
  digitGroupCont : List Char → List Char × List Char
    | '_' :: c :: rest =>
        if isDigitChar c then
          match digitGroupCont rest with
          | (ds, rest') => (c :: ds, rest')
        else ([], '_' :: c :: rest)
    | c :: rest =>
        if isDigitChar c then
          match digitGroupCont rest with
          | (ds, rest') => (c :: ds, rest')
        else ([], c :: rest)
    | [] => ([], [])

def digitsToNat (ds : List Char) : Nat :=
  ds.foldl (fun acc c => acc * 10 + (c.toNat - '0'.toNat)) 0

/-- Python `int(s)` on an already-stripped string: optional sign followed by
an underscore-grouped digit run.  `none` models `ValueError`. -/
def pyInt? (s : String) : Option Int :=
  let cs := s.toList
  let (sign, cs) : Bool × List Char :=
    match cs with
    | '-' :: rest => (true, rest)
    | '+' :: rest => (false, rest)
    | _ => (false, cs)
  match digitGroup cs with
  | some (ds, []) =>
      let n : Int := Int.ofNat (digitsToNat ds)
      some (if sign then -n else n)
  | _ => none

/-- Validity of a Python `float` literal that contains a decimal point
(the only case the script can reach, since it tries `float` only when `"."`
is in the text): `[sign] (digits "." digits? | "." digits) [exponent]`. -/
def pyFloatDotValid (s : String) : Bool :=
  let cs := s.toList
  let cs := match cs with
    | '-' :: rest => rest
    | '+' :: rest => rest
    | _ => cs
  -- mantissa: digits "." digits?  or  "." digits
  let mant : Option (List Char) :=
    match digitGroup cs with
    | some (_, '.' :: rest) =>
        -- optional fractional digit group
        (match digitGroup rest with
         | some (_, rest') => some rest'
         | none => some rest)
    | _ =>
        match cs with
        | '.' :: rest =>
            (match digitGroup rest with
             | some (_, rest') => some rest'
             | none => none)
        | _ => none
  match mant with
  | none => false
  | some rest =>
      match rest with
      | [] => true
      | e :: rest' =>
          if e = 'e' || e = 'E' then
            let rest'' := match rest' with
              | '-' :: r => r
              | '+' :: r => r
              | _ => rest'
            match digitGroup rest'' with
            | some (_, []) => true
            | _ => false
          else false

/-! ## Delimiter scanner -/

/-- Loop body of `TerraformTypeParser._find_matching_paren`: `cs` is the text
from position `pos` on, `count > 0` is the current open-paren count. -/
def fmpAux : List Char → Nat → Nat → Nat
  | [], _, pos => pos - 1
  | c :: rest, count, pos =>
      let count' := if c = '(' then count + 1 else if c = ')' then count - 1 else count
      if count' = 0 then pos else fmpAux rest count' (pos + 1)

/-- `TerraformTypeParser._find_matching_paren(text, start_pos)`: scan forward
from `start_pos + 1` with an initial depth of 1; the index of the matching
`)` — or `len(text) - 1` when the text ends first (there is no error path). -/
def findMatchingParen (s : String) (startPos : Nat) : Nat :=
  fmpAux (s.toList.drop (startPos + 1)) 1 (startPos + 1)

/-- Scanner state of `TerraformTypeParser._split_by_top_level_comma`.
The three counters are `int`s in Python and may go negative. -/
structure SplitSt where
  parts : List String
  current : List Char
  pc : Int
  bc : Int
  kc : Int
  inStr : Bool
  sChar : Option Char
  deriving Repr

/-- One character step of `_split_by_top_level_comma`, mirroring the Python
`if`/`elif` chain exactly (note: no escape handling inside quotes — a quote
character always closes a string it matches). -/
def splitStep (st : SplitSt) (c : Char) : SplitSt :=
  if (c = '"' || c = '\'') && !st.inStr then
    { st with inStr := true, sChar := some c, current := st.current ++ [c] }
  else if st.sChar = some c && st.inStr then
    { st with inStr := false, sChar := none, current := st.current ++ [c] }
  else if st.inStr then
    { st with current := st.current ++ [c] }
  else if c = '(' then
    { st with pc := st.pc + 1, current := st.current ++ [c] }
  else if c = ')' then
    { st with pc := st.pc - 1, current := st.current ++ [c] }
  else if c = '{' then
    { st with bc := st.bc + 1, current := st.current ++ [c] }
  else if c = '}' then
    { st with bc := st.bc - 1, current := st.current ++ [c] }
  else if c = '[' then
    { st with kc := st.kc + 1, current := st.current ++ [c] }
  else if c = ']' then
    { st with kc := st.kc - 1, current := st.current ++ [c] }
  else if c = ',' && st.pc = 0 && st.bc = 0 && st.kc = 0 then
    { st with parts := st.parts ++ [(stripChars st.current).asString], current := [] }
  else
    { st with current := st.current ++ [c] }

/-- `TerraformTypeParser._split_by_top_level_comma(text)`. -/
def splitByTopLevelComma (text : String) : List String :=
  let st := text.toList.foldl splitStep
    { parts := [], current := [], pc := 0, bc := 0, kc := 0, inStr := false, sChar := none }
  if (stripChars st.current).asString ≠ "" then
    st.parts ++ [(stripChars st.current).asString]
  else st.parts

/-! ## Literal (default value) decoding: `_parse_default_value` -/

/-- `TerraformTypeParser._parse_default_value(value_str)`.  Mirrors the Python
branch order exactly: quoted string (bare quote stripping, no escape
decoding), case-insensitive booleans, `null`, the exact literals `{}` / `[]`,
`int`/`float` decoding, and finally the raw text itself as a string (the
function is total — an undecodable default is kept verbatim, never dropped). -/
def parseDefaultValue (valueStr : String) : JVal :=
  let v := pyStrip valueStr
  if (pyStartsWith v "\"" && pyEndsWith v "\"") || (pyStartsWith v "'" && pyEndsWith v "'") then
    .str (pySlice v 1 (v.length - 1))
  else if pyLower v = "true" || pyLower v = "false" then .bool (pyLower v = "true")
  else if pyLower v = "null" then .null
  else if v = "\x7b\x7d" then .obj []
  else if v = "[]" then .arr []
  else if pyContainsChar v '.' then
    if pyFloatDotValid v then .float v else .str v
  else
    match pyInt? v with
    | some n => .int n
    | none => .str v

/-! ## The property-assignment regex

`re.search(r'^\s*["\']?([^"\':]+)["\']?\s*:\s*(.+)$', pair)`, embedded as the
backtracking search the Python regex engine performs: each greedy component
prefers its longest extent and backtracks downward, with earlier components'
preferences dominating. -/

def isQuoteChar (c : Char) : Bool := c = '"' || c = '\''

/-- Length of the longest prefix of `cs` satisfying `p`. -/
def runLength (p : Char → Bool) (cs : List Char) : Nat :=
  (cs.takeWhile p).length

/-- Try `f` at `n, n-1, …, 0`, returning the first success (greedy
backtracking order for a starred component). -/
def tryDescNat (n : Nat) (f : Nat → Option α) : Option α :=
  match n with
  | 0 => f 0
  | m + 1 =>
      match f (m + 1) with
      | some r => some r
      | none => tryDescNat m f

/-- The `(.+)$` tail: one or more non-newline characters reaching the end of
the string, where `$` also matches just before a single final newline. -/
def lastGroup (rest : List Char) : Option (List Char) :=
  if rest.isEmpty then none
  else if !(rest.contains '\n') then some rest
  else
    let body := rest.dropLast
    if rest.getLastD ' ' = '\n' && !(body.contains '\n') && !body.isEmpty then some body
    else none

/-- The whole-pair match of `^\s*["\']?([^"\':]+)["\']?\s*:\s*(.+)$`,
returning the two (unstripped) capture groups. -/
def colonMatch (pair : String) : Option (String × String) :=
  let cs := pair.toList
  tryDescNat (runLength pyIsSpace cs) (fun a =>
    let cs1 := cs.drop a
    let tryQuote1 : Nat → Option (String × String) := fun b =>
      (if b = 1 && !(match cs1.head? with | some c => isQuoteChar c | none => false) then none
       else
        let cs2 := cs1.drop b
        let crun := runLength (fun c => !(isQuoteChar c) && c ≠ ':') cs2
        tryDescNat crun (fun cLen =>
          if cLen = 0 then none
          else
            let g1 := cs2.take cLen
            let cs3 := cs2.drop cLen
            let tryQuote2 : Nat → Option (String × String) := fun d =>
              (if d = 1 && !(match cs3.head? with | some c => isQuoteChar c | none => false) then
                none
               else
                let cs4 := cs3.drop d
                tryDescNat (runLength pyIsSpace cs4) (fun e =>
                  match cs4.drop e with
                  | ':' :: cs6 =>
                      tryDescNat (runLength pyIsSpace cs6) (fun f =>
                        match lastGroup (cs6.drop f) with
                        | some g2 => some (g1.asString, g2.asString)
                        | none => none)
                  | _ => none))
            match tryQuote2 1 with
            | some r => some r
            | none => tryQuote2 0))
    match tryQuote1 1 with
    | some r => some r
    | none => tryQuote1 0)

/-! ## The type-expression parser -/

/-- The mutable per-parse state of `TerraformTypeParser`:
`self.optional_fields` (a set, modelled by a duplicate-free list used only
through membership) and `self.current_depth`. -/
structure PState where
  optionalFields : List String
  currentDepth : Nat
  deriving Repr, DecidableEq

/-- Python `set.add`. -/
def setAdd (l : List String) (x : String) : List String :=
  if l.contains x then l else l ++ [x]

/-- `TerraformTypeParser._clean_expression`: unwrap `${…}` layers, then strip.
(The loop tests the unstripped string, so `" ${x} "` is only stripped.) -/
def cleanExprAux : Nat → String → String
  | 0, s => pyStrip s
  | f + 1, s =>
      if pyStartsWith s "$\x7b" && pyEndsWith s "\x7d" then
        cleanExprAux f (pySlice s 2 (s.length - 1))
      else pyStrip s

def cleanExpression (s : String) : String :=
  cleanExprAux s.length s

/-- `TerraformTypeParser._create_simple_type`. -/
def createSimpleType (t : String) : JVal :=
  if t = "string" then .obj [("type", .str "string")]
  else if t = "number" then .obj [("type", .str "number")]
  else if t = "bool" then .obj [("type", .str "boolean")]
  else if t = "any" then .obj []
  else .obj [("type", .str "string")]

/-- The synthetic identifier field's schema (from `_add_id_field_to_schema`). -/
def idSchema : JVal :=
  .obj [("type", .str "string"), ("format", .str "uuid"), ("default", .str ""),
        ("options", .obj [("hidden", .bool true)])]

/-- `TerraformTypeParser._add_id_field_to_schema`: insert the synthetic `id`
property when a `properties` dict is present and lacks one, and mark `id`
optional in the current scope.  (The `properties` value is a dict whenever
present in this program.) -/
def addIdFieldToSchema (st : PState) (schema : JVal) : JVal × PState :=
  match schema with
  | .obj kvs =>
      match jget kvs "properties" with
      | some (.obj props) =>
          if jhas props "id" then (schema, st)
          else
            (.obj (jset kvs "properties" (.obj (jset props "id" idSchema))),
             { st with optionalFields := setAdd st.optionalFields "id" })
      | _ => (schema, st)
  | _ => (schema, st)

/-- `TerraformTypeParser._create_list_type(element_schema, depth)`: the `id`
field is injected exactly when the element schema is an object and the
enclosing-`list` count `depth` is zero. -/
def createListType (st : PState) (elem : JVal) (depth : Nat) : JVal × PState :=
  let isObj := match elem.get "type" with | some (.str "object") => true | _ => false
  if isObj && depth = 0 then
    (.obj [("type", .str "array"), ("items", (addIdFieldToSchema st elem).1)],
     (addIdFieldToSchema st elem).2)
  else (.obj [("type", .str "array"), ("items", elem)], st)

/-- `TerraformTypeParser._create_map_type`. -/
def createMapType (valueSchema : JVal) : JVal :=
  .obj [("type", .str "object"), ("additionalProperties", valueSchema)]

/-- `TerraformTypeParser._create_set_type` (no `id` injection). -/
def createSetType (elemSchema : JVal) : JVal :=
  .obj [("type", .str "array"), ("items", elemSchema), ("uniqueItems", .bool true)]

/-- `TerraformTypeParser._create_object_type`: `required` is appended only
when non-empty.  (The Python code smuggles the required list through the
sentinel key `"__required_fields__"` of the properties dict and pops it here;
the embedding passes it as the separate `req` argument and removes the
sentinel key in `parseObjectContentWith`, which is the same net effect.) -/
def createObjectType (props : List (String × JVal)) (req : List String) : JVal :=
  let base := [("type", JVal.str "object"), ("additionalProperties", JVal.bool true),
               ("properties", JVal.obj props)]
  if req.isEmpty then .obj base else .obj (base ++ [("required", .arr (req.map .str))])

/-- `TerraformTypeParser._extract_inner_type`: the first position matching
`rf"{type_name}\s*\("` (via `matchNameParenAt`), then the matching-paren scan. -/
def matchNameParenAt (cs : List Char) (name : List Char) : Option Nat :=
  if name.isPrefixOf cs then
    let rest := cs.drop name.length
    let w := runLength pyIsSpace rest
    match rest.drop w with
    | '(' :: _ => some (name.length + w + 1)
    | _ => none
  else none

def findNameParen : List Char → List Char → Nat → Option Nat
  | [], _, _ => none
  | cs@(_ :: rest), name, pos =>
      match matchNameParenAt cs name with
      | some n => some (pos + n)
      | none => findNameParen rest name (pos + 1)

def extractInnerType (expr : String) (typeName : String) : String :=
  match findNameParen expr.toList typeName.toList 0 with
  | none => "string"
  | some endIdx => pySlice expr endIdx (findMatchingParen expr (endIdx - 1))

/-- `TerraformTypeParser._extract_optional_parts`. -/
def extractOptionalParts (expr : String) : List String :=
  match pyFindChar expr '(' with
  | none => ["string"]
  | some start =>
      let e := findMatchingParen expr start
      let content := pySlice expr (start + 1) e
      (splitByTopLevelComma content).map pyStrip

/-- The quote stripping applied to a property's type text
(`_parse_object_content` lines 248–250). -/
def stripMatchingQuotes (s : String) : String :=
  if (pyStartsWith s "\"" && pyEndsWith s "\"") || (pyStartsWith s "'" && pyEndsWith s "'") then
    pySlice s 1 (s.length - 1)
  else s

/-- The property loop of `_parse_object_content`, parameterised by the
recursive parse function (`_parse_expression` at the enclosing fuel). -/
def parsePairsWith (recFn : PState → String → Option String → Option (JVal × PState)) :
    PState → List String → List (String × JVal) → Option (List (String × JVal) × PState)
  | st, [], props => some (props, st)
  | st, pair :: rest, props =>
      let p := pyStrip pair
      if p = "" then parsePairsWith recFn st rest props
      else
        match colonMatch p with
        | none => parsePairsWith recFn st rest props
        | some (g1, g2) =>
            let propName := pyStrip g1
            let propType := cleanExpression (stripMatchingQuotes (pyStrip g2))
            match recFn st propType (some propName) with
            | none => none
            | some (schema, st') => parsePairsWith recFn st' rest (jset props propName schema)

/-- `TerraformTypeParser._parse_object_content`, parameterised by the
recursive parse function: save/reset/restore the optional-fields scope, split
the braced content into property pairs, parse each, then compute the required
list for this scope (excluding `id`, defaulted and optional fields). -/
def parseObjectContentWith
    (recFn : PState → String → Option String → Option (JVal × PState))
    (st : PState) (content : String) :
    Option (List (String × JVal) × List String × PState) :=
  let parentOpt := st.optionalFields
  let st1 := { st with optionalFields := [] }
  let c0 := pyStrip content
  let c1 := if pyStartsWith c0 "\x7b" && pyEndsWith c0 "\x7d" then pySlice c0 1 (c0.length - 1) else c0
  match parsePairsWith recFn st1 (splitByTopLevelComma c1) [] with
  | none => none
  | some (props, st2) =>
      let localOpt := st2.optionalFields
      let st3 := { st2 with optionalFields := parentOpt }
      let required := props.filterMap (fun kv =>
        if kv.1 ≠ "id" && !(kv.2.get "default").isSome && !(localOpt.contains kv.1) then
          some kv.1
        else none)
      some (jerase props "__required_fields__", required, st3)

/-- The `optional()` side effect: record the field name (when supplied by the
enclosing object context) in the current scope's optional set. -/
def optFieldAdd (st : PState) (fieldName : Option String) : PState :=
  match fieldName with
  | some name => { st with optionalFields := setAdd st.optionalFields name }
  | none => st

/-- `TerraformTypeParser._parse_expression(expr, field_name)`, written as one
step of recursion parameterised by the recursive call (`parseExpr` ties the
knot through a fuel parameter: every Python-level recursive call is on a
strictly shorter string, so any `fuel > expr.length` computes the real
function; `none` models a Python exception — reachable only through
`optional()` with empty parentheses — or exhausted fuel). -/
def parseExprStep
    (recFn : PState → String → Option String → Option (JVal × PState))
    (st : PState) (expr : String) (fieldName : Option String) : Option (JVal × PState) :=
  if expr = "string" || expr = "number" || expr = "bool" || expr = "any" then
    some (createSimpleType expr, st)
  else if pyStartsWith expr "list(" then
    match recFn { st with currentDepth := st.currentDepth + 1 }
        (extractInnerType expr "list") fieldName with
    | none => none
    | some (elem, st2) =>
        some ((createListType st2 elem st.currentDepth).1,
              { (createListType st2 elem st.currentDepth).2 with
                  currentDepth := st.currentDepth })
  else if pyStartsWith expr "map(" then
    match recFn st (extractInnerType expr "map") fieldName with
    | none => none
    | some (v, st2) => some (createMapType v, st2)
  else if pyStartsWith expr "set(" then
    match recFn st (extractInnerType expr "set") fieldName with
    | none => none
    | some (e, st2) => some (createSetType e, st2)
  else if pyStartsWith expr "object(" then
    match parseObjectContentWith recFn st (extractInnerType expr "object") with
    | none => none
    | some (props, req, st2) => some (createObjectType props req, st2)
  else if pyStartsWith expr "optional(" then
    match extractOptionalParts expr with
    | [] => none
    | innerType :: restParts =>
        match recFn (optFieldAdd st fieldName) innerType fieldName with
        | none => none
        | some (schema, st2) =>
            match restParts.head? with
            | none => some (schema, st2)
            | some dv =>
                match schema with
                | .obj kvs => some (.obj (jset kvs "default" (parseDefaultValue dv)), st2)
                | _ => none
  else
    some (.obj [("type", .str "string")], st)

def parseExpr : Nat → PState → String → Option String → Option (JVal × PState)
  | 0, _, _, _ => none
  | fuel + 1, st, expr, fieldName =>
      parseExprStep (fun s e f => parseExpr fuel s e f) st expr fieldName

/-- `TerraformTypeParser.parse_type_expression(type_expr)`: reset the state,
clean and parse the expression, then (when the result has a `properties`
dict) recompute `required` from the *post-parse* `optional_fields` — note the
object scope restored its parent set before returning, which is the root of
the required-list defect established below. -/
def parseTypeExpression (fuel : Nat) (typeExpr : String) : Option (JVal × PState) :=
  let st : PState := { optionalFields := [], currentDepth := 0 }
  match parseExpr fuel st (cleanExpression typeExpr) none with
  | none => none
  | some (schema, st') =>
      match schema with
      | .obj kvs =>
          match jget kvs "properties" with
          | some (.obj props) =>
              let requiredList := props.filterMap (fun kv =>
                if !(st'.optionalFields.contains kv.1) && kv.1 ≠ "id" then some kv.1 else none)
              if requiredList.isEmpty then some (.obj kvs, st')
              else some (.obj (jset kvs "required" (.arr (requiredList.map .str))), st')
          | _ => some (schema, st')
      | _ => some (schema, st')

/-- The schema returned by `parse_type_expression` (its caller discards the
threaded parser state unless it patches required lists). -/
def parseSchema (fuel : Nat) (typeExpr : String) : Option JVal :=
  (parseTypeExpression fuel typeExpr).map Prod.fst

/-! ## `GenericJSONSchemaGenerator` -/

/-- The generator's mutable state: its `TerraformTypeParser` instance (whose
post-parse `optional_fields` is read back by `_convert_to_schema`) and the
write-only `uuid_added_paths` set. -/
structure GState where
  parser : PState
  uuidAddedPaths : List String
  deriving Repr

/-- The default `add_uuid_selectively=True` configuration of
`GenericJSONSchemaGenerator` (the only one the claims concern). -/
def addUuidSelectively : Bool := true

/-- `GenericJSONSchemaGenerator._add_id_field` (same insertion as the
parser's, but without marking `id` optional anywhere). -/
def addIdFieldGen (schema : JVal) : JVal :=
  match schema with
  | .obj kvs =>
      match jget kvs "properties" with
      | some (.obj props) =>
          if jhas props "id" then schema
          else .obj (jset kvs "properties" (.obj (jset props "id" idSchema)))
      | _ => schema
  | _ => schema

/-- `GenericJSONSchemaGenerator._should_add_uuid(path, value)` (the `value`
argument is unused by the Python code). -/
def shouldAddUuid (path : List String) : Bool :=
  if path.length > 0 then
    if path.getLast? = some "item" then path.length = 2
    else if path.length ≥ 2 && path.get? (path.length - 2) = some "items" then path.length = 3
    else false
  else false

/-- `GenericJSONSchemaGenerator._convert_string_to_schema`. -/
def convertStringRest (v : String) : JVal :=
  if pyStartsWith v "[" && pyEndsWith v "]" then
    .obj [("type", .str "array"), ("items", .obj [])]
  else if pyStartsWith v "\x7b" && pyEndsWith v "\x7d" then
    .obj [("type", .str "object"), ("additionalProperties", .bool true)]
  else .obj [("type", .str "string")]

def convertStringToSchema (value : String) : JVal :=
  let v := pyStrip value
  if pyLower v = "true" || pyLower v = "false" then .obj [("type", .str "boolean")]
  else if pyContainsChar v '.' then
    if pyFloatDotValid v then .obj [("type", .str "number")] else convertStringRest v
  else
    match pyInt? v with
    | some _ => .obj [("type", .str "integer")]
    | none => convertStringRest v

/-! ### The `contains(...)` regex mining (`_extract_and_apply_enums`)

The two patterns
`contains\s*\(\s*\[([^\]]+)\]\s*,\s*[^.]+\.(\w+)\s*\)` and
`contains\s*\(\s*\[([^\]]+)\]\s*,\s*(\w+)\.(\w+)\s*\)`
are embedded as the deterministic scans the backtracking engine reduces to
for these patterns (every starred class is disjoint from — or absorbs — the
character required next, so greedy matching never backtracks productively). -/

/-- Attempt pattern 1 at the head of `cs`; on success the two capture groups
and the number of characters consumed. -/
def attemptPat1 (cs : List Char) : Option ((String × String) × Nat) :=
  if ("contains".toList).isPrefixOf cs then
    let rest0 := cs.drop 8
    let w1 := runLength pyIsSpace rest0
    match rest0.drop w1 with
    | '(' :: rest1 =>
        let w2 := runLength pyIsSpace rest1
        match rest1.drop w2 with
        | '[' :: rest2 =>
            let k := runLength (· ≠ ']') rest2
            if k = 0 then none
            else
              match rest2.drop k with
              | ']' :: rest3 =>
                  let g1 := rest2.take k
                  let w3 := runLength pyIsSpace rest3
                  match rest3.drop w3 with
                  | ',' :: rest4 =>
                      -- `\s*[^.]+\.`: everything up to the first `.`,
                      -- which must not be the very first character
                      let p := runLength (· ≠ '.') rest4
                      if p = 0 then none
                      else
                        match rest4.drop p with
                        | '.' :: rest5 =>
                            let wn := runLength isWordChar rest5
                            if wn = 0 then none
                            else
                              let rest6 := rest5.drop wn
                              let w4 := runLength pyIsSpace rest6
                              match rest6.drop w4 with
                              | ')' :: _ =>
                                  some ((g1.asString, (rest5.take wn).asString),
                                    8 + w1 + 1 + w2 + 1 + k + 1 + w3 + 1 + p + 1 + wn + w4 + 1)
                              | _ => none
                        | _ => none
                  | _ => none
              | _ => none
        | _ => none
    | _ => none
  else none

/-- Attempt pattern 2 (`(\w+)\.(\w+)` receiver) at the head of `cs`;
the Python code keeps only groups 1 and 3 (content, property name). -/
def attemptPat2 (cs : List Char) : Option ((String × String) × Nat) :=
  if ("contains".toList).isPrefixOf cs then
    let rest0 := cs.drop 8
    let w1 := runLength pyIsSpace rest0
    match rest0.drop w1 with
    | '(' :: rest1 =>
        let w2 := runLength pyIsSpace rest1
        match rest1.drop w2 with
        | '[' :: rest2 =>
            let k := runLength (· ≠ ']') rest2
            if k = 0 then none
            else
              match rest2.drop k with
              | ']' :: rest3 =>
                  let g1 := rest2.take k
                  let w3 := runLength pyIsSpace rest3
                  match rest3.drop w3 with
                  | ',' :: rest4 =>
                      let w4 := runLength pyIsSpace rest4
                      let rest5 := rest4.drop w4
                      let a := runLength isWordChar rest5
                      if a = 0 then none
                      else
                        match rest5.drop a with
                        | '.' :: rest6 =>
                            let b := runLength isWordChar rest6
                            if b = 0 then none
                            else
                              let rest7 := rest6.drop b
                              let w5 := runLength pyIsSpace rest7
                              match rest7.drop w5 with
                              | ')' :: _ =>
                                  some ((g1.asString, (rest6.take b).asString),
                                    8 + w1 + 1 + w2 + 1 + k + 1 + w3 + 1 + w4 + a + 1 + b + w5 + 1)
                              | _ => none
                        | _ => none
                  | _ => none
              | _ => none
        | _ => none
    | _ => none
  else none

/-- `re.findall`: scan left to right, emitting each non-overlapping match and
resuming after its end. -/
def findAll (f : List Char → Option (α × Nat)) : Nat → List Char → List α
  | 0, _ => []
  | _, [] => []
  | fuel + 1, cs =>
      match f cs with
      | some (g, consumed) => g :: findAll f fuel (cs.drop (max consumed 1))
      | none =>
          match cs with
          | [] => []
          | _ :: rest => findAll f fuel rest

/-- `re.findall(r'"([^"]+)"', content)` (fuel-bounded scan; any fuel above
the text length is enough, each step consumes at least one character). -/
def extractQuoted : Nat → List Char → List String
  | 0, _ => []
  | _, [] => []
  | fuel + 1, '"' :: rest =>
      let k := runLength (· ≠ '"') rest
      if k = 0 then extractQuoted fuel rest
      else
        match rest.drop k with
        | '"' :: rest2 => (rest.take k).asString :: extractQuoted fuel rest2
        | _ => []
  | fuel + 1, _ :: rest => extractQuoted fuel rest

/-- The nested-properties loop of `apply_enum_recursively`, parameterised by
the recursive call at the enclosing fuel. -/
def applyEnumFoldWith (recFn : JVal → JVal × Bool) :
    List (String × JVal) → List (String × JVal) × Bool
  | [] => ([], false)
  | (k, ps) :: rest =>
      let (ps', ap) :=
        match ps with
        | .obj pkvs =>
            if (match jget pkvs "type" with | some (.str "array") => true | _ => false)
                && jhas pkvs "items" then
              match jget pkvs "items" with
              | some items =>
                  let (items', a) := recFn items
                  (JVal.obj (jset pkvs "items" items'), a)
              | none => (ps, false)
            else if (match jget pkvs "type" with | some (.str "object") => true | _ => false) then
              recFn ps
            else (ps, false)
        | _ => (ps, false)
      let (rest', ap2) := applyEnumFoldWith recFn rest
      ((k, ps') :: rest', ap || ap2)

/-- `apply_enum_recursively(obj, prop_name, values)` from
`GenericJSONSchemaGenerator._apply_enum_to_schema_property`. -/
def applyEnumRec : Nat → JVal → String → List String → JVal × Bool
  | 0, o, _, _ => (o, false)
  | fuel + 1, o, propName, values =>
      match o with
      | .obj kvs =>
          if (match jget kvs "type" with | some (.str "array") => true | _ => false)
              && jhas kvs "items" then
            match jget kvs "items" with
            | some items =>
                let (items', ap) := applyEnumRec fuel items propName values
                (.obj (jset kvs "items" items'), ap)
            | none => (o, false)
          else
            match jget kvs "properties" with
            | some (.obj props) =>
                let (props1, applied1) :=
                  match jget props propName with
                  | some (.obj psch) =>
                      (jset props propName (.obj (jset psch "enum" (.arr (values.map .str)))),
                       true)
                  | _ => (props, false)
                let (props2, applied2) :=
                  applyEnumFoldWith (fun v => applyEnumRec fuel v propName values) props1
                (.obj (jset kvs "properties" (.obj props2)), applied1 || applied2)
            | _ => (o, false)
      | _ => (o, false)

/-- `GenericJSONSchemaGenerator._apply_enum_to_schema_property` (the caller
ignores the `applied` flag). -/
def applyEnumToSchemaProperty (fuel : Nat) (schema : JVal) (propName : String)
    (values : List String) : JVal :=
  (applyEnumRec fuel schema propName values).1

/-- `GenericJSONSchemaGenerator._extract_and_apply_enums(schema, condition)`:
collect the matches of pattern 1 then pattern 2, extract quoted (else bare)
candidate values from each bracketed list, and apply each non-empty value set
to every matching property. -/
def extractAndApplyEnums (fuel : Nat) (schema : JVal) (condition : String) : JVal :=
  let cs := condition.toList
  let allMatches := findAll attemptPat1 (cs.length + 1) cs ++ findAll attemptPat2 (cs.length + 1) cs
  allMatches.foldl (fun sch m =>
    let q := extractQuoted (m.1.length + 1) m.1.toList
    let enumVals :=
      if q.isEmpty then
        (((pySplitChar m.1.toList ',').map (fun v => (stripChars v).asString)).filter
            (fun v => v ≠ "")).filter (fun v => !(pyStartsWith v "$"))
      else q
    if enumVals.isEmpty then sch
    else applyEnumToSchemaProperty fuel sch m.2 enumVals) schema

/-! ### Validation handling and `generate_schema` -/

/-- Python truthiness of a `JVal` (for `if not validations: return`).
A symbolic float is falsy exactly when its mantissa digits are all zero. -/
def floatMantissaZero (s : String) : Bool :=
  ((s.toList.takeWhile (fun c => c ≠ 'e' && c ≠ 'E')).filter isDigitChar).all (· = '0')

def jIsFalsy : JVal → Bool
  | .arr xs => xs.isEmpty
  | .obj kvs => kvs.isEmpty
  | .str s => s.isEmpty
  | .int n => n = 0
  | .float s => floatMantissaZero s
  | .bool b => !b
  | .null => true

/-- The `${…}` unwrapping of a validation condition (no final strip, unlike
`_clean_expression`). -/
def cleanCondAux : Nat → String → String
  | 0, s => s
  | f + 1, s =>
      if pyStartsWith s "$\x7b" && pyEndsWith s "\x7d" then cleanCondAux f (pySlice s 2 (s.length - 1))
      else s

/-- The per-rule loop of `_add_validation_constraints`; a non-dict rule makes
`validation.get` raise (`none`), and a non-string condition would make
`startswith` raise. -/
def valLoop (fuel : Nat) : JVal → List JVal → Option JVal
  | sch, [] => some sch
  | sch, v :: rest =>
      match v with
      | .obj kvs =>
          match (jget kvs "condition").getD (.str "") with
          | .str c => valLoop fuel (extractAndApplyEnums fuel sch (cleanCondAux c.length c)) rest
          | _ => none
      | _ => none

/-- `GenericJSONSchemaGenerator._add_validation_constraints`. -/
def addValidationConstraints (fuel : Nat) (schema : JVal) (validations : JVal) : Option JVal :=
  if jIsFalsy validations then some schema
  else
    match validations with
    | .arr vs => valLoop fuel schema vs
    | _ => none

/-- Python substring containment (`needle in haystack` on strings). -/
def listIsInfixOf (p : List Char) : List Char → Bool
  | [] => p.isEmpty
  | c :: rest => p.isPrefixOf (c :: rest) || listIsInfixOf p rest

/-- Python `key in value` (`in` raises `TypeError` on non-containers). -/
def pyIn (v : JVal) (key : String) : Option Bool :=
  match v with
  | .obj kvs => some (jhas kvs key)
  | .str s => some (listIsInfixOf key.toList s.toList)
  | .arr xs => some (xs.any (fun x => match x with | .str t => t = key | _ => false))
  | _ => none

/-- Python `value[key]` with a string key (`TypeError` except on dicts,
`KeyError` when missing — both `none`). -/
def pyIndexStr (v : JVal) (key : String) : Option JVal :=
  match v with
  | .obj kvs => jget kvs key
  | _ => none

/-- `prop_schema[key] = var_def[key]` guarded by `key in var_def`
(`generate_schema` lines 490–495). -/
def attachField (vdef : JVal) (key : String) (sch : JVal) : Option JVal :=
  match pyIn vdef key with
  | none => none
  | some false => some sch
  | some true =>
      match pyIndexStr vdef key with
      | none => none
      | some v =>
          match sch with
          | .obj kvs => some (.obj (jset kvs key v))
          | _ => none

/-- The per-key loop of the generic-dict branch of `_convert_to_schema`,
parameterised by the recursive conversion. -/
def convertEntriesWith (recFn : GState → JVal → List String → Option (JVal × GState)) :
    GState → List (String × JVal) → List String → List (String × JVal) → List String →
    Option (List (String × JVal) × List String × GState)
  | gst, [], _, props, req => some (props, req, gst)
  | gst, (k, v) :: rest, path, props, req =>
      match recFn gst v (path ++ [k]) with
      | none => none
      | some (s, gst') => convertEntriesWith recFn gst' rest path (jset props k s) (req ++ [k])

/-- `GenericJSONSchemaGenerator._convert_to_schema(value, path)` (together
with `_convert_type_definition`, inlined for the string/dict/list cases).
Note the faithful quirks: the required patch-up after a `type` parse reads
the parser's *post-parse* `optional_fields`; `isinstance(value, (int, float))`
precedes the `bool` test, so booleans are numbers; a generic dict's
`required` lists every key. -/
def convertToSchema : Nat → GState → JVal → List String → Option (JVal × GState)
  | 0, _, _, _ => none
  | fuel + 1, gst, value, path =>
      match value with
      | .obj kvs =>
          if jhas kvs "type" then
            let tdef := (jget kvs "type").getD .null
            let converted : Option (JVal × GState) :=
              match tdef with
              | .str s =>
                  -- self.type_parser.current_depth = len(path) (immediately
                  -- reset inside parse_type_expression)
                  match parseTypeExpression (s.length + 1) s with
                  | none => none
                  | some (schema, pst) => some (schema, { gst with parser := pst })
              | .obj _ => convertToSchema fuel gst tdef path
              | .arr _ => convertToSchema fuel gst tdef path
              | _ => some (.obj [("type", .str "string")], gst)
            match converted with
            | none => none
            | some (schema, gst1) =>
                match schema with
                | .obj skvs =>
                    match jget skvs "properties", jget skvs "required" with
                    | some (.obj props), none =>
                        let req := props.filterMap (fun kv =>
                          if !(gst1.parser.optionalFields.contains kv.1) && kv.1 ≠ "id" then
                            some kv.1
                          else none)
                        if req.isEmpty then some (.obj skvs, gst1)
                        else some (.obj (jset skvs "required" (.arr (req.map .str))), gst1)
                    | some _, none => none
                    | _, _ => some (schema, gst1)
                | _ => some (schema, gst1)
          else
            match convertEntriesWith (fun g v p => convertToSchema fuel g v p) gst kvs path [] [] with
            | none => none
            | some (props, req, gst1) =>
                let schema := JVal.obj [("type", .str "object"),
                  ("additionalProperties", .bool true), ("properties", .obj props),
                  ("required", .arr (req.map .str))]
                if addUuidSelectively && shouldAddUuid path then
                  some (addIdFieldGen schema,
                    { gst1 with
                      uuidAddedPaths := setAdd gst1.uuidAddedPaths (String.intercalate "." path) })
                else some (schema, gst1)
      | .arr xs =>
          match xs with
          | [] => some (.obj [("type", .str "array"), ("items", .obj [])], gst)
          | x :: _ =>
              match convertToSchema fuel gst x (path ++ ["item"]) with
              | none => none
              | some (item, gst1) =>
                  let item' := if addUuidSelectively then addIdFieldGen item else item
                  some (.obj [("type", .str "array"), ("items", item')], gst1)
      | .str s => some (convertStringToSchema s, gst)
      | .int _ => some (.obj [("type", .str "number")], gst)
      | .float _ => some (.obj [("type", .str "number")], gst)
      | .bool _ => some (.obj [("type", .str "number")], gst)
      | .null => some (.obj [], gst)

/-- The per-variable loop of `GenericJSONSchemaGenerator.generate_schema`. -/
def genVarLoop (fuel : Nat) : GState → List (String × JVal) → List (String × JVal) →
    Option (List (String × JVal) × GState)
  | gst, [], props => some (props, gst)
  | gst, (name, vdef) :: rest, props =>
      match convertToSchema fuel gst vdef [name] with
      | none => none
      | some (sch0, gst1) =>
          match attachField vdef "description" sch0 with
          | none => none
          | some sch1 =>
              match attachField vdef "default" sch1 with
              | none => none
              | some sch2 =>
                  match pyIn vdef "validation" with
                  | none => none
                  | some false => genVarLoop fuel gst1 rest (jset props name sch2)
                  | some true =>
                      match pyIndexStr vdef "validation" with
                      | none => none
                      | some vals =>
                          match addValidationConstraints fuel sch2 vals with
                          | none => none
                          | some sch3 => genVarLoop fuel gst1 rest (jset props name sch3)

/-- `GenericJSONSchemaGenerator.generate_schema(variables)`: the document
root is built with an empty `required` list which no later code touches —
variables are never added to it (the loop body ends in `pass`). -/
def generateSchema (fuel : Nat) (vars : List (String × JVal)) : Option JVal :=
  let gst : GState := { parser := { optionalFields := [], currentDepth := 0 }, uuidAddedPaths := [] }
  match genVarLoop fuel gst vars [] with
  | none => none
  | some (props, _) =>
      some (.obj [("$schema", .str "http://json-schema.org/draft-07/schema#"),
                  ("type", .str "object"), ("additionalProperties", .bool true),
                  ("properties", .obj props), ("required", .arr [])])

/-! ## The `required`-never-contains-`id` invariant (claim C4) -/

/-- A `JVal` that may appear inside a `required` list: not the string `"id"`. -/
def notIdStr : JVal → Bool
  | .str s => s ≠ "id"
  | _ => true

/-- Admissible value for a `"required"` key: if it is a list, no `"id"` inside. -/
def reqValOK : JVal → Bool
  | .arr l => l.all notIdStr
  | _ => true

mutual
/-- No `required` list anywhere inside the value contains the name `"id"`. -/
def noIdReq : JVal → Bool
  | .obj kvs => noIdReqEntries kvs
  | .arr xs => noIdReqList xs
  | _ => true

def noIdReqEntries : List (String × JVal) → Bool
  | [] => true
  | (k, v) :: rest =>
      ((if k = "required" then reqValOK v else true) && noIdReq v) && noIdReqEntries rest

def noIdReqList : List JVal → Bool
  | [] => true
  | v :: rest => noIdReq v && noIdReqList rest
end

/-- The value is a Python dict (every schema this parser builds is one). -/
def isObjVal : JVal → Bool
  | .obj _ => true
  | _ => false

/-- The scan started inside one open parenthesis never returns to depth zero:
after any prefix, the closers seen are fewer than one plus the openers seen. -/
def neverBalances (cs : List Char) : Prop :=
  ∀ j, j ≤ cs.length → (cs.take j).count ')' < 1 + (cs.take j).count '('

instance (cs : List Char) : Decidable (neverBalances cs) := by
  unfold neverBalances
  infer_instance

/-! ## Spec-modelled escape-honoring quote scan (for claim C6) -/

/-- State of the escape-honoring quote scan. -/
structure EscSt where
  inStr : Bool
  sChar : Option Char
  escaped : Bool

/-- Modelled from the spec: the quoted-string flag of `split_top_level`
"honoring a single escape character inside quotes" — inside a quote a
backslash escapes the next character, so an escaped quote must not close the
string.  The code's `_split_by_top_level_comma` has no escape handling; this
definition exists only to compare the two behaviours. -/
def escStep (st : EscSt) (c : Char) : EscSt :=
  if st.inStr then
    if st.escaped then { st with escaped := false }
    else if c = '\\' then { st with escaped := true }
    else if st.sChar = some c then { inStr := false, sChar := none, escaped := false }
    else st
  else if c = '"' || c = '\'' then { inStr := true, sChar := some c, escaped := false }
  else st

/-- Whether position `n` of the text lies inside a quoted string under the
escape-honoring scan. -/
def escInString (cs : List Char) (n : Nat) : Bool :=
  ((cs.take n).foldl escStep { inStr := false, sChar := none, escaped := false }).inStr

/-- The C10 example schema: an array variable whose items carry a `region`
string property (and a sibling `name` property that must stay untouched). -/
def regionItemsSchema : JVal :=
  .obj [("type", .str "array"),
    ("items", .obj [("type", .str "object"), ("additionalProperties", .bool true),
      ("properties", .obj [("region", .obj [("type", .str "string")]),
                           ("name", .obj [("type", .str "string")])]),
      ("required", .arr [.str "region", .str "name"])])]

theorem parseExpr_zero (st : PState) (e : String) (fn : Option String) :
    parseExpr 0 st e fn = none := rfl

theorem parseExpr_succ (fuel : Nat) (st : PState) (e : String) (fn : Option String) :
    parseExpr (fuel + 1) st e fn =
      parseExprStep (fun s e2 f => parseExpr fuel s e2 f) st e fn := rfl

theorem noIdReq_obj (kvs : List (String × JVal)) :
    noIdReq (.obj kvs) = noIdReqEntries kvs := by
  rw [noIdReq]

theorem noIdReq_arr (xs : List JVal) : noIdReq (.arr xs) = noIdReqList xs := by
  rw [noIdReq]

theorem noIdReqEntries_cons (k : String) (v : JVal) (rest : List (String × JVal)) :
    noIdReqEntries ((k, v) :: rest) =
      (((if k = "required" then reqValOK v else true) && noIdReq v) && noIdReqEntries rest) := by
  rw [noIdReqEntries]

/-- `jset` preserves the invariant when the new value is admissible. -/
theorem noIdReqEntries_jset (kvs : List (String × JVal)) (k : String) (v : JVal)
    (h : noIdReqEntries kvs = true)
    (hk : (if k = "required" then reqValOK v else true) = true)
    (hv : noIdReq v = true) :
    noIdReqEntries (jset kvs k v) = true := by
  induction kvs with
  | nil => simp [jset, noIdReqEntries, hk, hv]
  | cons kv rest ih =>
      obtain ⟨k', v'⟩ := kv
      rw [noIdReqEntries_cons] at h
      simp only [Bool.and_eq_true] at h
      rw [jset]
      by_cases hkk : k' = k
      · simp only [if_pos hkk]
        rw [noIdReqEntries_cons]
        subst hkk
        simp [hk, hv, h.2]
      · simp only [if_neg hkk]
        rw [noIdReqEntries_cons]
        simp [h.1.1, h.1.2, ih h.2]

/-- `jerase` preserves the invariant. -/
theorem noIdReqEntries_jerase (kvs : List (String × JVal)) (k : String)
    (h : noIdReqEntries kvs = true) :
    noIdReqEntries (jerase kvs k) = true := by
  induction kvs with
  | nil => simpa [jerase] using h
  | cons kv rest ih =>
      obtain ⟨k', v'⟩ := kv
      rw [noIdReqEntries_cons] at h
      simp only [Bool.and_eq_true] at h
      rw [jerase]
      by_cases hkk : k' = k
      · simp only [if_pos hkk]
        exact ih h.2
      · simp only [if_neg hkk]
        rw [noIdReqEntries_cons]
        simp [h.1.1, h.1.2, ih h.2]

/-- A value looked up in an invariant-satisfying dict satisfies the invariant. -/
theorem noIdReq_of_jget (kvs : List (String × JVal)) (k : String) (v : JVal)
    (h : noIdReqEntries kvs = true) (hg : jget kvs k = some v) :
    noIdReq v = true := by
  induction kvs with
  | nil => simp [jget] at hg
  | cons kv rest ih =>
      obtain ⟨k', v'⟩ := kv
      rw [noIdReqEntries_cons] at h
      simp only [Bool.and_eq_true] at h
      rw [jget] at hg
      by_cases hkk : k' = k
      · simp only [if_pos hkk] at hg
        cases hg
        exact h.1.2
      · simp only [if_neg hkk] at hg
        exact ih h.2 hg

/-- Mapping names to JSON strings never produces an `"id"` entry when the
names avoid it. -/
theorem noIdReqList_map_str (l : List String) : noIdReqList (l.map JVal.str) = true := by
  induction l with
  | nil => rw [List.map_nil, noIdReqList]
  | cons x rest ih => rw [List.map_cons, noIdReqList]; simp [noIdReq, ih]

theorem reqValOK_map_str (l : List String) (h : ∀ x ∈ l, x ≠ "id") :
    reqValOK (.arr (l.map JVal.str)) = true := by
  rw [reqValOK]
  rw [List.all_eq_true]
  intro v hv
  rw [List.mem_map] at hv
  obtain ⟨x, hx, rfl⟩ := hv
  simpa [notIdStr] using h x hx

theorem reqValOK_of_isObj (v : JVal) (h : isObjVal v = true) : reqValOK v = true := by
  cases v <;> simp_all [isObjVal, reqValOK]

theorem noIdReq_parseDefaultValue (s : String) : noIdReq (parseDefaultValue s) = true := by
  unfold parseDefaultValue; dsimp only; repeat' split
  all_goals rfl

theorem noIdReq_createSimpleType (t : String) : noIdReq (createSimpleType t) = true := by
  unfold createSimpleType; repeat' split
  all_goals rfl

theorem isObj_createSimpleType (t : String) : isObjVal (createSimpleType t) = true := by
  unfold createSimpleType; repeat' split
  all_goals rfl

theorem noIdReq_addIdFieldToSchema (st : PState) (sch : JVal) (h : noIdReq sch = true) :
    noIdReq (addIdFieldToSchema st sch).1 = true := by
  unfold addIdFieldToSchema
  split
  case h_2 => exact h
  case h_1 kvs =>
    split
    case h_2 => exact h
    case h_1 props hget =>
      split
      · exact h
      · dsimp only
        rw [noIdReq_obj] at h ⊢
        have hprops : noIdReqEntries props = true := by
          have hv := noIdReq_of_jget kvs "properties" (.obj props) h hget
          rwa [noIdReq_obj] at hv
        apply noIdReqEntries_jset _ _ _ h (by simp)
        rw [noIdReq_obj]
        exact noIdReqEntries_jset _ _ _ hprops (by simp) rfl

theorem isObj_addIdFieldToSchema (st : PState) (sch : JVal) (h : isObjVal sch = true) :
    isObjVal (addIdFieldToSchema st sch).1 = true := by
  unfold addIdFieldToSchema
  split
  case h_2 => exact h
  case h_1 kvs =>
    split
    case h_2 => exact h
    case h_1 props hget => split <;> simp [isObjVal]

theorem noIdReq_createListType (st : PState) (elem : JVal) (d : Nat)
    (h : noIdReq elem = true) : noIdReq (createListType st elem d).1 = true := by
  unfold createListType
  dsimp only
  split
  · simp [noIdReq, noIdReqEntries, noIdReqList, noIdReq_addIdFieldToSchema st elem h]
  · simp [noIdReq, noIdReqEntries, noIdReqList, h]

theorem isObj_createListType (st : PState) (elem : JVal) (d : Nat) :
    isObjVal (createListType st elem d).1 = true := by
  unfold createListType; dsimp only; split <;> rfl

theorem noIdReq_createMapType (v : JVal) (h : noIdReq v = true) :
    noIdReq (createMapType v) = true := by
  simp [createMapType, noIdReq, noIdReqEntries, noIdReqList, h]

theorem noIdReq_createSetType (v : JVal) (h : noIdReq v = true) :
    noIdReq (createSetType v) = true := by
  simp [createSetType, noIdReq, noIdReqEntries, noIdReqList, h]

theorem noIdReq_createObjectType (props : List (String × JVal)) (req : List String)
    (hp : noIdReqEntries props = true) (hr : ∀ x ∈ req, x ≠ "id") :
    noIdReq (createObjectType props req) = true := by
  unfold createObjectType
  dsimp only
  split
  · simp [noIdReq, noIdReqEntries, noIdReqList, hp]
  · rw [noIdReq_obj]
    simp [noIdReqEntries, noIdReq, hp, reqValOK_map_str req hr, noIdReqList_map_str]

theorem isObj_createObjectType (props : List (String × JVal)) (req : List String) :
    isObjVal (createObjectType props req) = true := by
  unfold createObjectType; dsimp only; split <;> rfl

/-- The property loop preserves the invariant on the accumulated properties
dict, given that the recursive parse produces invariant-satisfying dicts. -/
theorem parsePairsWith_noId
    (recFn : PState → String → Option String → Option (JVal × PState))
    (hrec : ∀ st e fn v st', recFn st e fn = some (v, st') →
      noIdReq v = true ∧ isObjVal v = true) :
    ∀ pairs st props out stOut, noIdReqEntries props = true →
      parsePairsWith recFn st pairs props = some (out, stOut) →
      noIdReqEntries out = true := by
  intro pairs
  induction pairs with
  | nil =>
      intro st props out stOut hp h
      rw [parsePairsWith] at h
      cases h
      exact hp
  | cons pair rest ih =>
      intro st props out stOut hp h
      rw [parsePairsWith] at h
      dsimp only at h
      split at h
      · exact ih _ _ _ _ hp h
      · split at h
        · exact ih _ _ _ _ hp h
        · split at h
          · exact absurd h (by simp)
          · rename_i g1 g2 res heq
            obtain ⟨hn, ho⟩ := hrec _ _ _ _ _ heq
            refine ih _ _ _ _ ?_ h
            apply noIdReqEntries_jset _ _ _ hp _ hn
            split
            · exact reqValOK_of_isObj _ ho
            · rfl

/-- The object-content routine produces invariant-satisfying properties and
an `id`-free required list. -/
theorem parseObjectContentWith_noId
    (recFn : PState → String → Option String → Option (JVal × PState))
    (hrec : ∀ st e fn v st', recFn st e fn = some (v, st') →
      noIdReq v = true ∧ isObjVal v = true)
    (st : PState) (content : String) (props : List (String × JVal)) (req : List String)
    (stOut : PState)
    (h : parseObjectContentWith recFn st content = some (props, req, stOut)) :
    noIdReqEntries props = true ∧ ∀ x ∈ req, x ≠ "id" := by
  unfold parseObjectContentWith at h
  dsimp only at h
  split at h
  · exact absurd h (by simp)
  · rename_i res heq
    cases h
    constructor
    · refine noIdReqEntries_jerase _ _ (parsePairsWith_noId recFn hrec _ _ _ _ _ ?_ heq)
      rfl
    · intro x hx
      rw [List.mem_filterMap] at hx
      obtain ⟨kv, _, hf⟩ := hx
      split at hf
      · rename_i hcond
        cases hf
        simp only [Bool.and_eq_true, decide_eq_true_eq] at hcond
        exact hcond.1.1
      · exact absurd hf (by simp)

/-- One step of the main invariant: `parseExprStep` produces an
invariant-satisfying dict whenever its recursive-call argument does. -/
theorem parseExprStep_noId
    (recFn : PState → String → Option String → Option (JVal × PState))
    (hrec : ∀ st e fn v st', recFn st e fn = some (v, st') →
      noIdReq v = true ∧ isObjVal v = true)
    (st : PState) (e : String) (fn : Option String) (v : JVal) (st' : PState)
    (h : parseExprStep recFn st e fn = some (v, st')) :
    noIdReq v = true ∧ isObjVal v = true := by
  unfold parseExprStep at h
  split at h
  · cases h
    exact ⟨noIdReq_createSimpleType _, isObj_createSimpleType _⟩
  · split at h
    · -- list
      split at h
      · exact absurd h (by simp)
      · rename_i res heq
        cases h
        obtain ⟨hn, _⟩ := hrec _ _ _ _ _ heq
        exact ⟨noIdReq_createListType _ _ _ hn, isObj_createListType _ _ _⟩
    · split at h
      · -- map
        split at h
        · exact absurd h (by simp)
        · rename_i res heq
          cases h
          obtain ⟨hn, _⟩ := hrec _ _ _ _ _ heq
          exact ⟨noIdReq_createMapType _ hn, rfl⟩
      · split at h
        · -- set
          split at h
          · exact absurd h (by simp)
          · rename_i res heq
            cases h
            obtain ⟨hn, _⟩ := hrec _ _ _ _ _ heq
            exact ⟨noIdReq_createSetType _ hn, rfl⟩
        · split at h
          · -- object
            split at h
            · exact absurd h (by simp)
            · rename_i res heq
              cases h
              obtain ⟨hp, hr⟩ := parseObjectContentWith_noId _ hrec _ _ _ _ _ heq
              exact ⟨noIdReq_createObjectType _ _ hp hr, isObj_createObjectType _ _⟩
          · split at h
            · -- optional
              split at h
              · exact absurd h (by simp)
              · split at h
                · exact absurd h (by simp)
                · rename_i res heq
                  split at h
                  · cases h
                    exact hrec _ _ _ _ _ heq
                  · split at h
                    · rename_i kvs
                      cases h
                      obtain ⟨hn, _⟩ := hrec _ _ _ _ _ heq
                      rw [noIdReq_obj] at hn
                      constructor
                      · rw [noIdReq_obj]
                        apply noIdReqEntries_jset _ _ _ hn (by simp)
                        exact noIdReq_parseDefaultValue _
                      · rfl
                    · exact absurd h (by simp)
            · -- fallback
              cases h
              exact ⟨rfl, rfl⟩

/-- Main invariant: every schema produced by `_parse_expression` satisfies
`noIdReq` and is a dict. -/
theorem parseExpr_noId :
    ∀ fuel st e fn v st', parseExpr fuel st e fn = some (v, st') →
      noIdReq v = true ∧ isObjVal v = true := by
  intro fuel
  induction fuel with
  | zero => intro st e fn v st' h; rw [parseExpr_zero] at h; exact absurd h (by simp)
  | succ fuel ih =>
      intro st e fn v st' h
      rw [parseExpr_succ] at h
      exact parseExprStep_noId _ (fun st e fn v st' hh => ih st e fn v st' hh) _ _ _ _ _ h

/-- The required list recomputed by `parse_type_expression` also avoids `id`,
so the invariant extends to the public entry point. -/
theorem parseTypeExpression_noId (fuel : Nat) (t : String) (v : JVal) (st' : PState)
    (h : parseTypeExpression fuel t = some (v, st')) : noIdReq v = true := by
  unfold parseTypeExpression at h
  dsimp only at h
  split at h
  · exact absurd h (by simp)
  · rename_i res heq
    obtain ⟨hn, _⟩ := parseExpr_noId _ _ _ _ _ _ heq
    split at h
    case h_2 => cases h; exact hn
    case h_1 kvs =>
      split at h
      case h_1 props hget =>
        split at h
        · cases h; exact hn
        · cases h
          rw [noIdReq_obj] at hn ⊢
          apply noIdReqEntries_jset _ _ _ hn
          · simp only [if_pos rfl]
            apply reqValOK_map_str
            intro x hx
            rw [List.mem_filterMap] at hx
            obtain ⟨kv, _, hf⟩ := hx
            split at hf
            · rename_i hcond
              cases hf
              simp only [Bool.and_eq_true, decide_eq_true_eq] at hcond
              exact hcond.2
            · exact absurd hf (by simp)
          · rw [noIdReq_arr]
            exact noIdReqList_map_str _
      all_goals (cases h; exact hn)

/-! ## Behaviour of `_find_matching_paren` on unbalanced input (claim C5) -/

theorem fmpAux_runs_out :
    ∀ (cs : List Char) (count pos : Nat), 0 < count →
      (∀ j, j ≤ cs.length → (cs.take j).count ')' < count + (cs.take j).count '(') →
      fmpAux cs count pos = pos + cs.length - 1 := by
  intro cs
  induction cs with
  | nil =>
      intro count pos hc h
      rw [fmpAux]
      simp
  | cons c rest ih =>
      intro count pos hc h
      have h1 := h 1 (by simp)
      rw [List.take_succ_cons, List.take_zero] at h1
      rw [fmpAux]
      by_cases hop : c = '('
      · subst hop
        rw [show (if ('(' : Char) = '(' then count + 1
              else if ('(' : Char) = ')' then count - 1 else count) = count + 1 by simp]
        rw [if_neg (Nat.succ_ne_zero count)]
        rw [ih (count + 1) (pos + 1) (by omega) ?_]
        · simp only [List.length_cons]
          omega
        · intro j hj
          have hj1 := h (j + 1) (by simpa using hj)
          rw [List.take_succ_cons] at hj1
          simp [List.count_cons] at hj1
          omega
      · by_cases hcl : c = ')'
        · subst hcl
          simp only [List.count_cons] at h1
          simp at h1
          rw [show (if (')' : Char) = '(' then count + 1
                else if (')' : Char) = ')' then count - 1 else count) = count - 1 by simp]
          rw [if_neg (by omega : ¬ count - 1 = 0)]
          rw [ih (count - 1) (pos + 1) (by omega) ?_]
          · simp only [List.length_cons]
            omega
          · intro j hj
            have hj1 := h (j + 1) (by simpa using hj)
            rw [List.take_succ_cons] at hj1
            simp [List.count_cons] at hj1
            omega
        · rw [if_neg hop, if_neg hcl]
          rw [if_neg (by omega : ¬ count = 0)]
          rw [ih count (pos + 1) hc ?_]
          · simp only [List.length_cons]
            omega
          · intro j hj
            have hj1 := h (j + 1) (by simpa using hj)
            rw [List.take_succ_cons] at hj1
            have h3 : (')' : Char) ≠ c := fun hh => hcl hh.symm
            have h4 : ('(' : Char) ≠ c := fun hh => hop hh.symm
            simp [List.count_cons, h3, h4] at hj1
            omega

/-- On never-balancing input, `_find_matching_paren` reports no failure: it
returns the index of the last character of the text. -/
theorem findMatchingParen_unbalanced (s : String) (i : Nat) (hi : i < s.length)
    (h : neverBalances (s.toList.drop (i + 1))) :
    findMatchingParen s i = s.length - 1 := by
  unfold findMatchingParen
  rw [fmpAux_runs_out (s.toList.drop (i + 1)) 1 (i + 1) (by omega) h]
  have hlen : s.toList.length = s.length := rfl
  rw [List.length_drop]
  omega

/-! ## The claims -/

/-- **C1** (status: code bug).  The claim says an `optional(...)` property is
absent from the enclosing object's `required` list regardless of whether the
object is the variable's top-level type.  Failing input: the top-level object
`object({a: optional(string, "x")})` (written in the colon dialect the HCL
front-end feeds to `_parse_object_content`).  The scope computes
`required = []` correctly (a is optional and has a default), but
`parse_type_expression` then recomputes `required` from `optional_fields`
*after* `_parse_object_content` restored the (empty) parent scope, so the
emitted schema lists the optional, defaulted property `a` as required — the
default `"x"` is attached as the claim demands, but `required = ["a"]`
contradicts it.  The nested-object path (inside list/set/map) is not affected
because arrays/maps have no top-level `properties` key to trigger the rewrite. -/
theorem c1_optional_in_top_level_object_required_bug :
    parseSchema 100 "object(\x7ba: optional(string, \"x\")\x7d)" =
      some (.obj [("type", .str "object"), ("additionalProperties", .bool true),
        ("properties", .obj [("a", .obj [("type", .str "string"), ("default", .str "x")])]),
        ("required", .arr [.str "a"])]) := rfl

/-- **C2** (status: code bug).  Scope isolation itself is implemented (the
inner object's required list `["a"]` is computed from its own scope and the
outer scope's optional set is saved/reset/restored), but the claim's
conclusion "the outer `a` is absent from the outer object's `required`" fails
on the same top-level rewrite as C1: the emitted outer `required` is
`["a", "b"]`, listing the optional outer `a`. -/
theorem c2_scope_isolation_outer_required_bug :
    parseSchema 100 "object(\x7ba: optional(string), b: object(\x7ba: string\x7d)\x7d)" =
      some (.obj [("type", .str "object"), ("additionalProperties", .bool true),
        ("properties", .obj [
          ("a", .obj [("type", .str "string")]),
          ("b", .obj [("type", .str "object"), ("additionalProperties", .bool true),
            ("properties", .obj [("a", .obj [("type", .str "string")])]),
            ("required", .arr [.str "a"])])]),
        ("required", .arr [.str "a", .str "b"])]) := rfl

/-- **C3 counterexample.**  The claim says arrays nested two or more levels
deep never receive the synthetic `id` field.  But `_parse_expression` only
increments `current_depth` in its `list(` branch, so object (or map) nesting
does not count: in `object({a: object({b: list(object({c: string}))})})` the
list sits two object levels below the variable's type, yet its element schema
receives the `id` field (visible in the innermost `properties`). -/
theorem c3_deep_nested_list_gets_id :
    parseSchema 100
        "object(\x7ba: object(\x7bb: list(object(\x7bc: string\x7d))\x7d)\x7d)" =
      some (.obj [("type", .str "object"), ("additionalProperties", .bool true),
        ("properties", .obj [("a",
          .obj [("type", .str "object"), ("additionalProperties", .bool true),
            ("properties", .obj [("b",
              .obj [("type", .str "array"), ("items",
                .obj [("type", .str "object"), ("additionalProperties", .bool true),
                  ("properties", .obj [("c", .obj [("type", .str "string")]),
                                       ("id", idSchema)]),
                  ("required", .arr [.str "c"])])])]),
            ("required", .arr [.str "b"])])]),
        ("required", .arr [.str "a"])]) := rfl

/-- **C3 amended** (status: corrected).  The synthetic `id` field is injected
into a list's element object exactly when the `list(` is not nested inside
another `list(` — the depth counter counts only enclosing lists, so object
and map nesting does not block injection, and `set(` elements never receive
it: (i) a top-level `list(object(...))` gets `id` in its item schema;
(ii) a list nested inside a top-level list's element object does not;
(iii) a list directly inside a list does not (its element is not an object,
and the inner list is at list-depth one); (iv) `set(object(...))` never
injects. -/
theorem c3_id_injection_by_list_depth :
    (parseSchema 100 "list(object(\x7bb: string\x7d))" =
      some (.obj [("type", .str "array"), ("items",
        .obj [("type", .str "object"), ("additionalProperties", .bool true),
          ("properties", .obj [("b", .obj [("type", .str "string")]), ("id", idSchema)]),
          ("required", .arr [.str "b"])])])) ∧
    (parseSchema 100 "list(object(\x7bnested: list(object(\x7bc: string\x7d))\x7d))" =
      some (.obj [("type", .str "array"), ("items",
        .obj [("type", .str "object"), ("additionalProperties", .bool true),
          ("properties", .obj [
            ("nested", .obj [("type", .str "array"), ("items",
              .obj [("type", .str "object"), ("additionalProperties", .bool true),
                ("properties", .obj [("c", .obj [("type", .str "string")])]),
                ("required", .arr [.str "c"])])]),
            ("id", idSchema)]),
          ("required", .arr [.str "nested"])])])) ∧
    (parseSchema 100 "list(list(object(\x7bb: string\x7d)))" =
      some (.obj [("type", .str "array"), ("items",
        .obj [("type", .str "array"), ("items",
          .obj [("type", .str "object"), ("additionalProperties", .bool true),
            ("properties", .obj [("b", .obj [("type", .str "string")])]),
            ("required", .arr [.str "b"])])])])) ∧
    (parseSchema 100 "set(object(\x7bb: string\x7d))" =
      some (.obj [("type", .str "array"), ("items",
        .obj [("type", .str "object"), ("additionalProperties", .bool true),
          ("properties", .obj [("b", .obj [("type", .str "string")])]),
          ("required", .arr [.str "b"])]), ("uniqueItems", .bool true)])) :=
  ⟨rfl, rfl, rfl, rfl⟩

/-- **C4** (status: confirmed).  For every type expression, no `required`
list in any object schema emitted by `parse_type_expression` contains the
synthetic identifier name `"id"`, even when an `id` property is present in
that object's `properties`: both places that build a required list
(`_parse_object_content` and the final rewrite in `parse_type_expression`)
filter the name `"id"` out explicitly. -/
theorem c4_required_never_contains_id (fuel : Nat) (t : String) (schema : JVal)
    (h : parseSchema fuel t = some schema) : noIdReq schema = true := by
  unfold parseSchema at h
  cases hh : parseTypeExpression fuel t with
  | none => rw [hh] at h; exact absurd h (by simp)
  | some p =>
      rw [hh] at h
      simp only [Option.map_some', Option.some.injEq] at h
      subst h
      exact parseTypeExpression_noId _ _ _ _ hh

/-- Witness for C4 at an input that declares its own `id` property: the
emitted `required` is `["b"]`, and the invariant evaluates to `true`. -/
theorem c4_required_never_contains_id_witness :
    parseSchema 100 "object(\x7bid: string, b: string\x7d)" =
      some (.obj [("type", .str "object"), ("additionalProperties", .bool true),
        ("properties", .obj [("id", .obj [("type", .str "string")]),
                             ("b", .obj [("type", .str "string")])]),
        ("required", .arr [.str "b"])]) ∧
    noIdReq (.obj [("type", .str "object"), ("additionalProperties", .bool true),
        ("properties", .obj [("id", .obj [("type", .str "string")]),
                             ("b", .obj [("type", .str "string")])]),
        ("required", .arr [.str "b"])]) = true :=
  ⟨rfl, c4_required_never_contains_id 100 "object(\x7bid: string, b: string\x7d)" _ rfl⟩

/-- **C5 counterexample.**  The claim says unbalanced input fails with an
`UnbalancedDelimiter` error and produces no schema.  The code has no such
error path: on `object({a = string` the matching-close scan simply runs off
the end and `parse_type_expression` *returns a schema* (an object schema with
empty `properties`, since the brace-stripping and the property regex find no
`name: type` pair). -/
theorem c5_unbalanced_returns_schema :
    parseSchema 100 "object(\x7ba = string" =
      some (.obj [("type", .str "object"), ("additionalProperties", .bool true),
        ("properties", .obj [])]) := rfl

/-- **C5 amended** (status: corrected).  Unbalanced input does not fail:
whenever the scan started at an opening parenthesis never returns to depth
zero, `_find_matching_paren` returns `len(text) - 1` (the index of the last
character) instead of reporting an error, and parsing proceeds on the
resulting text slice, producing a schema. -/
theorem c5_unbalanced_scan_returns_last_index (s : String) (i : Nat) (hi : i < s.length)
    (h : neverBalances (s.toList.drop (i + 1))) :
    findMatchingParen s i = s.length - 1 :=
  findMatchingParen_unbalanced s i hi h

/-- Witness for C5 at the claim's own input, whose `(` at index 6 is never
closed: the scan returns index 17 = `len - 1`. -/
theorem c5_unbalanced_scan_returns_last_index_witness :
    6 < ("object(\x7ba = string" : String).length ∧
    neverBalances (("object(\x7ba = string" : String).toList.drop 7) ∧
    findMatchingParen "object(\x7ba = string" 6 = 17 :=
  ⟨by decide, by decide,
   c5_unbalanced_scan_returns_last_index "object(\x7ba = string" 6 (by decide) (by decide)⟩

/-- **C6 counterexample.**  The claim says the top-level split honours a
single escape character inside quotes.  It does not: in `"a\",b"` the comma
lies inside the quoted string under escape-honoring scanning (position 4 is
in-string, first conjunct), yet `_split_by_top_level_comma` treats the
escaped `\"` as closing the string and splits there, yielding two segments. -/
theorem c6_escaped_quote_splits :
    escInString ("\"a\\\",b\"".toList) 4 = true ∧
    splitByTopLevelComma "\"a\\\",b\"" = ["\"a\\\"", "b\""] := ⟨rfl, rfl⟩

/-- **C6 amended** (status: corrected).  The split emits a boundary only at a
comma at depth 0 for all three bracket kinds and outside a quoted string,
where the quote scan has *no* escape handling (a quote character always
toggles the string state); empty trailing segments are dropped: the claim's
own example and the bracket/quote/trailing cases behave as stated. -/
theorem c6_split_top_level_no_escape :
    splitByTopLevelComma "a(b,c),d" = ["a(b,c)", "d"] ∧
    splitByTopLevelComma "a\x7bb,c\x7d,d" = ["a\x7bb,c\x7d", "d"] ∧
    splitByTopLevelComma "a[b,c],d" = ["a[b,c]", "d"] ∧
    splitByTopLevelComma "\"b,c\",d" = ["\"b,c\"", "d"] ∧
    splitByTopLevelComma "a,b," = ["a", "b"] :=
  ⟨rfl, rfl, rfl, rfl, rfl⟩

/-- **C7** (status: confirmed).  The document root produced by
`generate_schema` always carries an empty `required` list: the root dict is
created with `required = []` and the per-variable loop deliberately ends in
`pass`, never adding variable names (with or without defaults). -/
theorem c7_root_required_always_empty (fuel : Nat) (vars : List (String × JVal))
    (out : JVal) (h : generateSchema fuel vars = some out) :
    out.get "required" = some (.arr []) := by
  unfold generateSchema at h
  dsimp only at h
  split at h
  · exact absurd h (by simp)
  · cases h
    rfl

/-- Witness for C7 with one variable that lacks a default: the root
`required` is empty. -/
theorem c7_root_required_always_empty_witness :
    generateSchema 100 [("x", .obj [("type", .str "string")])] =
      some (.obj [("$schema", .str "http://json-schema.org/draft-07/schema#"),
        ("type", .str "object"), ("additionalProperties", .bool true),
        ("properties", .obj [("x", .obj [("type", .str "string")])]),
        ("required", .arr [])]) ∧
    JVal.get (.obj [("$schema", .str "http://json-schema.org/draft-07/schema#"),
        ("type", .str "object"), ("additionalProperties", .bool true),
        ("properties", .obj [("x", .obj [("type", .str "string")])]),
        ("required", .arr [])]) "required" = some (.arr []) :=
  ⟨rfl, c7_root_required_always_empty 100 [("x", .obj [("type", .str "string")])] _ rfl⟩

/-- **C8** (status: confirmed).  For every input that is neither a primitive
keyword nor one of the five recognised constructs, `_parse_expression` never
raises: it returns the safe string fallback schema (leaving the parser state
untouched), so unrecognised type syntax cannot halt compilation. -/
theorem c8_unrecognized_falls_back_to_string (fuel : Nat) (st : PState) (e : String)
    (fn : Option String)
    (h1 : e ≠ "string") (h2 : e ≠ "number") (h3 : e ≠ "bool") (h4 : e ≠ "any")
    (h5 : pyStartsWith e "list(" = false) (h6 : pyStartsWith e "map(" = false)
    (h7 : pyStartsWith e "set(" = false) (h8 : pyStartsWith e "object(" = false)
    (h9 : pyStartsWith e "optional(" = false) :
    parseExpr (fuel + 1) st e fn = some (.obj [("type", .str "string")], st) := by
  rw [parseExpr_succ]
  unfold parseExprStep
  rw [if_neg (by simp [h1, h2, h3, h4]), if_neg (by simp [h5]), if_neg (by simp [h6]),
      if_neg (by simp [h7]), if_neg (by simp [h8]), if_neg (by simp [h9])]

/-- Witness for C8 at the unrecognised input `"tuple([string])"` (a construct
the grammar corpus does not cover). -/
theorem c8_unrecognized_falls_back_to_string_witness :
    ("tuple([string])" : String) ≠ "string" ∧
    pyStartsWith "tuple([string])" "list(" = false ∧
    parseExpr 1 ⟨[], 0⟩ "tuple([string])" none =
      some (.obj [("type", .str "string")], ⟨[], 0⟩) :=
  ⟨by decide, rfl,
   c8_unrecognized_falls_back_to_string 0 ⟨[], 0⟩ "tuple([string])" none
     (by decide) (by decide) (by decide) (by decide) rfl rfl rfl rfl rfl⟩

/-- **C9 counterexample.**  The claim says nested list literals are decoded
recursively and undecodable default text is omitted.  Neither happens:
`optional(string, [1, 2])` keeps the default verbatim as the *string*
`"[1, 2]"` — not the list `[1, 2]`, and not omitted. -/
theorem c9_list_default_kept_as_string :
    parseSchema 100 "optional(string, [1, 2])" =
      some (.obj [("type", .str "string"), ("default", .str "[1, 2]")]) := rfl

/-- **C9 amended** (status: corrected).  `_parse_default_value` decodes
quoted strings (by bare quote stripping — no escape decoding, so `\n` stays
two characters), case-insensitive booleans and `null`, exactly the
two-character literals `{}` and `[]`, and int/float numerals; *any* other
text (including nested list/map literals) is kept verbatim as a string — the
default is never omitted and never fails the variable. -/
theorem c9_default_literal_decoding :
    parseDefaultValue "\"x\"" = .str "x" ∧
    parseDefaultValue "'y'" = .str "y" ∧
    parseDefaultValue "\"a\\nb\"" = .str "a\\nb" ∧
    parseDefaultValue "TRUE" = .bool true ∧
    parseDefaultValue "False" = .bool false ∧
    parseDefaultValue "null" = .null ∧
    parseDefaultValue "\x7b\x7d" = .obj [] ∧
    parseDefaultValue "[]" = .arr [] ∧
    parseDefaultValue "42" = .int 42 ∧
    parseDefaultValue "-7" = .int (-7) ∧
    parseDefaultValue "[1, 2]" = .str "[1, 2]" ∧
    parseDefaultValue "foo" = .str "foo" :=
  ⟨rfl, rfl, rfl, rfl, rfl, rfl, rfl, rfl, rfl, rfl, rfl, rfl⟩

/-- **C10 counterexample.**  The claim quantifies over every test of the
shape `contains([<literal-list>], <path-expression>.<property-name>)` with an
arbitrary path expression.  But both extraction regexes require the receiver
before the final dot to be dot-free (`[^.]+\.` resp. `(\w+)\.`), so the test
`contains(["x", "y"], each.value.region)` — of exactly the claimed shape,
with path expression `each.value` — matches neither pattern and no enum is
attached: the schema comes back unchanged, `region` gets no `enum`. -/
theorem c10_dotted_receiver_not_matched :
    extractAndApplyEnums 100 regionItemsSchema
      "contains([\"x\", \"y\"], each.value.region)" = regionItemsSchema := rfl

/-- **C10 amended** (status: corrected).  For enumerated-membership tests
whose receiver segment between the comma and the final dot contains no dot
(e.g. an iterator variable, as in `contains(["x","y"], item.region)`), the
extractor attaches the literal list as the `enum` of every property of that
name found by descending array `items` and object `properties` — here to the
`region` property of the array's items and to nothing else. -/
theorem c10_single_ident_receiver_enum_applied :
    extractAndApplyEnums 100 regionItemsSchema "contains([\"x\", \"y\"], item.region)" =
      .obj [("type", .str "array"),
        ("items", .obj [("type", .str "object"), ("additionalProperties", .bool true),
          ("properties", .obj [
            ("region", .obj [("type", .str "string"),
                             ("enum", .arr [.str "x", .str "y"])]),
            ("name", .obj [("type", .str "string")])]),
          ("required", .arr [.str "region", .str "name"])])] := rfl

end TfSchema
